import Mathlib

/-!
Verification of the process-sandbox subsystem (experiments/process_sandbox/libsandbox.cc)
against its natural-language specification.  The C++ code is shallowly embedded:
machine integers become Nat with explicit reductions where the code can wrap,
the host-global pagemap and the per-child shared page become tables Nat → Nat
indexed by pagemap bucket, and the stateful service loop becomes a pure step
function from service state and request to new state and optional response.
-/

namespace sandbox

/-- Modelled from the spec: the bucket granularity of the metadata table
(snmalloc SUPERSLAB_SIZE, 2^24 bytes); metadata entry counts are the request
size divided by this granularity. -/
def SUPERSLAB_SIZE : Nat := 2 ^ 24

/-- Modelled from the spec: the number of valid large size classes accepted by
the is_large_sizeclass check (snmalloc NUM_LARGE_CLASSES). -/
def NUM_LARGE_CLASSES : Nat := 40

/-- Modelled from the spec: the byte size of a large size class
(snmalloc large_sizeclass_to_size): the superslab size scaled by 2^class. -/
def large_sizeclass_to_size (sc : Nat) : Nat := SUPERSLAB_SIZE * 2 ^ sc

/-- Modelled from the spec: the canonical table index of the bucket holding an
address (snmalloc ChunkmapPagemap.index_for_address). -/
def index_for_address (a : Nat) : Nat := a / SUPERSLAB_SIZE

/-- Value of the C expression 1ULL << rpc.arg1: on the targeted architectures a
64-bit shift masks its count to 6 bits. -/
def shiftedSize (arg1 : Nat) : Nat := 2 ^ (arg1 % 64)

/-- Message kinds of a Host Call Request (host_service_calls.h is not part of
the extracted sources; the closed enumeration is given by the spec and by the
switch in MemoryServiceProvider.run). -/
inductive HostServiceCallID where
  | MemoryProviderPushLargeStack
  | MemoryProviderPopLargeStack
  | MemoryProviderReserve
  | ChunkMapSet
  | ChunkMapSetRange
  | ChunkMapClearRange
deriving DecidableEq, Repr

/-- Fixed-layout Host Call Request: kind plus two address-sized arguments. -/
structure HostServiceRequest where
  kind : HostServiceCallID
  arg0 : Nat
  arg1 : Nat
deriving DecidableEq, Repr

/-- Fixed-layout Host Call Response: error flag and address-sized result. -/
structure HostServiceResponse where
  error : Nat
  result : Nat
deriving DecidableEq, Repr

/-- Modelled from the spec: the per-sandbox memory provider.  Its Memory Range
is the span [base, base + size); it also carries the per-size-class stacks of
free large blocks managed by push_large_stack and pop_large_stack. -/
structure SharedMemoryProvider where
  base : Nat
  size : Nat
  largeStacks : List (List Nat)
deriving DecidableEq, Repr

/-- Modelled from the spec: the Memory Range bounds check used for every
child-originated address: the span [addr, addr + sz) must lie inside
[base, base + size). -/
def SharedMemoryProvider.contains (p : SharedMemoryProvider) (addr sz : Nat) : Bool :=
  decide (p.base ≤ addr) && decide (addr + sz ≤ p.base + p.size)

/-- Modelled from the spec: push a free large block onto the stack for its
size class. -/
def push_large_stack (p : SharedMemoryProvider) (addr sc : Nat) : SharedMemoryProvider :=
  { p with largeStacks := p.largeStacks.set sc (addr :: p.largeStacks.getD sc []) }

/-- Modelled from the spec: pop a free large block from the stack for a size
class; an empty stack yields the null address 0. -/
def pop_large_stack (p : SharedMemoryProvider) (sc : Nat) : Nat × SharedMemoryProvider :=
  match p.largeStacks.getD sc [] with
  | [] => (0, p)
  | a :: rest => (a, { p with largeStacks := p.largeStacks.set sc rest })

/-- The canonical host-global pagemap (and likewise the per-child shared page):
a table from bucket index to the one-byte metadata entry stored there. -/
abbrev PagemapTable := Nat → Nat

/-- Per-sandbox metadata held by the service (struct Sandbox): the memory
provider owning the range and the shared pagemap page of that child. -/
structure Sandbox where
  memory_provider : SharedMemoryProvider
  shared_page : Nat → Nat

/-- Modelled from the spec: the compact one-byte metadata recorded for the head
bucket of a large span of the given byte size. -/
def largeHeadEntry (allocSize : Nat) : Nat := (128 + Nat.log2 allocSize) % 256

/-- Modelled from the spec: the redirect marker recorded for the non-head
buckets of a large span. -/
def largeRedirectEntry : Nat := 64

/-- Modelled from the spec: ChunkmapPagemap.set stores the low byte of the
value into the single bucket holding the address. -/
def cpmSet (t : PagemapTable) (addr val : Nat) : PagemapTable :=
  Function.update t (index_for_address addr) (val % 256)

/-- Modelled from the spec: DefaultChunkMap.set_large_size records metadata for
a span of allocSize bytes: the head bucket gets the size encoding and the
remaining allocSize / SUPERSLAB_SIZE - 1 buckets get redirect markers. -/
def set_large_size (t : PagemapTable) (addr allocSize : Nat) : PagemapTable :=
  fun j =>
    if index_for_address addr ≤ j ∧ j < index_for_address addr + allocSize / SUPERSLAB_SIZE then
      (if j = index_for_address addr then largeHeadEntry allocSize else largeRedirectEntry)
    else t j

/-- Modelled from the spec: DefaultChunkMap.clear_large_size zeroes the
buckets covering a span of allocSize bytes. -/
def clear_large_size (t : PagemapTable) (addr allocSize : Nat) : PagemapTable :=
  fun j =>
    if index_for_address addr ≤ j ∧ j < index_for_address addr + allocSize / SUPERSLAB_SIZE then 0
    else t j

/-- Modelled from the spec: DefaultChunkMap.get reads the bucket holding an
address. -/
def pmGet (t : PagemapTable) (addr : Nat) : Nat := t (index_for_address addr)

/-- The copy loop at the end of validate_and_insert: for i < entries, write
shared_page[index + i] := pm.get(address + i * SUPERSLAB_SIZE). -/
def copy_entries (pm : PagemapTable) (page : Nat → Nat) (address index entries : Nat) :
    Nat → Nat :=
  (List.range entries).foldl
    (fun pg i => Function.update pg (index + i) (pmGet pm (address + i * SUPERSLAB_SIZE))) page

/-- MemoryServiceProvider.validate_and_insert (libsandbox.cc lines 218-264):
validate a metadata mutation request against the Memory Range of the sending
sandbox; if allowed, apply it to the canonical table and copy the affected
entries into the shared page.  Returns the safe flag together with the updated
canonical table and updated sandbox. -/
def validate_and_insert (pm : PagemapTable) (s : Sandbox) (rpc : HostServiceRequest) :
    Bool × PagemapTable × Sandbox :=
  let address := rpc.arg0
  let index := index_for_address rpc.arg0
  let alloc_size := shiftedSize rpc.arg1
  let res : Bool × Nat × PagemapTable :=
    match rpc.kind with
    | .ChunkMapSet =>
        if s.memory_provider.contains address SUPERSLAB_SIZE then
          (true, 1, cpmSet pm rpc.arg0 rpc.arg1)
        else (false, 1, pm)
    | .ChunkMapSetRange =>
        if s.memory_provider.contains address alloc_size then
          (true, alloc_size / SUPERSLAB_SIZE, set_large_size pm address alloc_size)
        else (false, alloc_size / SUPERSLAB_SIZE, pm)
    | .ChunkMapClearRange =>
        if s.memory_provider.contains address alloc_size then
          (true, alloc_size / SUPERSLAB_SIZE, clear_large_size pm address alloc_size)
        else (false, alloc_size / SUPERSLAB_SIZE, pm)
    | _ => (true, 1, pm)
  if res.1 then
    (true, res.2.2,
      { s with shared_page := copy_entries res.2.2 s.shared_page address index res.2.1 })
  else (false, res.2.2, s)

/-- State of the Pagemap Synchronization Service: the canonical host-global
pagemap table and the registration map from channel descriptor to sandbox. -/
structure ServiceState where
  pagemap : PagemapTable
  ranges : List (Nat × Sandbox)

/-- ranges.find(fd): look up the sandbox registered for a channel. -/
def lookupRange (l : List (Nat × Sandbox)) (fd : Nat) : Option Sandbox :=
  (l.find? (fun e => e.1 == fd)).map (fun e => e.2)

/-- Store back the (by-reference, in C++) mutated sandbox of a channel. -/
def updateRange (l : List (Nat × Sandbox)) (fd : Nat) (s : Sandbox) : List (Nat × Sandbox) :=
  l.map (fun e => if e.1 == fd then (fd, s) else e)

/-- The is_large_sizeclass lambda of MemoryServiceProvider.run. -/
def is_large_sizeclass (large_size : Nat) : Bool := decide (large_size < NUM_LARGE_CLASSES)

/-- One iteration of MemoryServiceProvider.run for a well-formed request read
from channel fd (libsandbox.cc lines 119-201).  If no Memory Range is
registered for the channel the request is dropped without a response
(the continue at line 137); otherwise the request is dispatched and a response
is always produced, defaulting to error = 1.  The snmalloc reserve operation is
not part of the extracted sources, so it is taken as a parameter. -/
def processMessage (reserveImpl : SharedMemoryProvider → Nat → Nat × SharedMemoryProvider)
    (st : ServiceState) (fd : Nat) (rpc : HostServiceRequest) :
    ServiceState × Option HostServiceResponse :=
  match lookupRange st.ranges fd with
  | none => (st, none)
  | some s =>
    match rpc.kind with
    | .MemoryProviderPushLargeStack =>
        let base := rpc.arg0
        let large_size := rpc.arg1 % 256
        if is_large_sizeclass large_size &&
            s.memory_provider.contains base (large_sizeclass_to_size large_size) then
          let p1 := push_large_stack s.memory_provider base large_size
          ({ st with ranges := updateRange st.ranges fd { s with memory_provider := p1 } },
            some ⟨0, 0⟩)
        else (st, some ⟨1, 0⟩)
    | .MemoryProviderPopLargeStack =>
        let large_size := rpc.arg1 % 256
        if is_large_sizeclass large_size then
          let r := pop_large_stack s.memory_provider large_size
          ({ st with ranges := updateRange st.ranges fd { s with memory_provider := r.2 } },
            some ⟨0, r.1⟩)
        else (st, some ⟨1, 0⟩)
    | .MemoryProviderReserve =>
        let large_size := rpc.arg1 % 256
        if is_large_sizeclass large_size then
          let r := reserveImpl s.memory_provider large_size
          ({ st with ranges := updateRange st.ranges fd { s with memory_provider := r.2 } },
            some ⟨0, r.1⟩)
        else (st, some ⟨1, 0⟩)
    | .ChunkMapSet | .ChunkMapSetRange | .ChunkMapClearRange =>
        let r := validate_and_insert st.pagemap s rpc
        ({ st with pagemap := r.2.1, ranges := updateRange st.ranges fd r.2.2 },
          some ⟨if r.1 then 0 else 1, 0⟩)

/-- The implied address span of a metadata mutation request, as checked by
validate_and_insert: a whole superslab for a plain set, 1 << arg1 bytes for a
range set or clear. -/
def impliedSpanContained (s : Sandbox) (rpc : HostServiceRequest) : Bool :=
  match rpc.kind with
  | .ChunkMapSet => s.memory_provider.contains rpc.arg0 SUPERSLAB_SIZE
  | .ChunkMapSetRange => s.memory_provider.contains rpc.arg0 (shiftedSize rpc.arg1)
  | .ChunkMapClearRange => s.memory_provider.contains rpc.arg0 (shiftedSize rpc.arg1)
  | _ => true

/-- Predicate: the request is one of the three metadata mutation kinds. -/
def isChunkMapKind (k : HostServiceCallID) : Bool :=
  match k with
  | .ChunkMapSet => true
  | .ChunkMapSetRange => true
  | .ChunkMapClearRange => true
  | _ => false

/-- The number of metadata entries the copy loop writes for a request:
one for a plain set, alloc_size / SUPERSLAB_SIZE for a range set or clear. -/
def entriesFor (rpc : HostServiceRequest) : Nat :=
  match rpc.kind with
  | .ChunkMapSetRange => shiftedSize rpc.arg1 / SUPERSLAB_SIZE
  | .ChunkMapClearRange => shiftedSize rpc.arg1 / SUPERSLAB_SIZE
  | _ => 1

/-- The canonical-table mutation a metadata request performs when accepted. -/
def canonicalApply (pm : PagemapTable) (rpc : HostServiceRequest) : PagemapTable :=
  match rpc.kind with
  | .ChunkMapSet => cpmSet pm rpc.arg0 rpc.arg1
  | .ChunkMapSetRange => set_large_size pm rpc.arg0 (shiftedSize rpc.arg1)
  | .ChunkMapClearRange => clear_large_size pm rpc.arg0 (shiftedSize rpc.arg1)
  | _ => pm

/-- SandboxedLibrary.alloc_in_sandbox (lines 930-939): snmalloc bits.umul
computes bytes * count together with an overflow flag for the 64-bit size_t
product; on overflow the function returns the null pointer (0), otherwise it
delegates the exact product to the restricted allocator, taken here as a
parameter mapping a byte count to the returned address. -/
def alloc_in_sandbox (allocImpl : Nat → Nat) (bytes count : Nat) : Nat :=
  if 2 ^ 64 ≤ bytes * count then 0 else allocImpl (bytes * count % 2 ^ 64)

/-- Outcome of a host call into the sandbox. -/
inductive SendOutcome where
  | completed
  | abnormalTermination
deriving DecidableEq, Repr

/-- The wait loop of SandboxedLibrary.send (lines 832-838): repeatedly perform
a 100 microsecond timed wait for the child-finished state; on each timeout
check whether the child process has exited and, if so, fail the call
(throw a runtime error, abnormalTermination here).  The loop is embedded with
explicit fuel: childFinished i tells whether the timed wait of iteration i
observed completion, childExited i is the has_child_exited liveness check of
iteration i, and a none result models the loop still running when the fuel
runs out. -/
def send_loop (childFinished childExited : Nat → Bool) : Nat → Nat → Option SendOutcome
  | 0, _ => none
  | fuel + 1, i =>
    if childFinished i then some .completed
    else if childExited i then some .abnormalTermination
    else send_loop childFinished childExited fuel (i + 1)

/-- A C struct timespec value. -/
structure Timespec where
  tv_sec : Int
  tv_nsec : Int
deriving DecidableEq, Repr

/-- The deadline computation of the timed wait (lines 503-508): the monotonic
now plus the requested timeout.  The source adds the nanosecond fields with
__builtin_add_overflow; for valid timespecs both fields are below 10^9, far
under the 64-bit signed bound, so the carry is always zero and the sum is
exact. -/
def wait_deadline (now timeout : Timespec) : Timespec :=
  ⟨timeout.tv_sec + now.tv_sec, now.tv_nsec + timeout.tv_nsec⟩

/-- Total nanoseconds denoted by a timespec. -/
def Timespec.toNanos (t : Timespec) : Int := t.tv_sec * 1000000000 + t.tv_nsec

/-- Abstraction of the scheduling of one timed wait: wakeNanos is the monotonic
instant at which pthread_cond_timedwait returns control (before the deadline
when woken by a signal, at or after it on a timeout), and flagAt gives the
value of is_child_executing as read at an instant. -/
structure WaitSchedule where
  wakeNanos : Int
  flagAt : Int → Bool

/-- SharedMemoryRegion.wait(expected, timeout) (lines 501-514): compute the
deadline, perform a single pthread_cond_timedwait, then read
is_child_executing once and return whether it equals expected.  The returned
value depends only on the flag as read at the wakeup instant; the deadline
does not enter it. -/
def timed_wait (expected : Bool) (now timeout : Timespec) (sched : WaitSchedule) : Bool :=
  expected == sched.flagAt sched.wakeNanos

/-- The behaviour claimed by the spec for the timed wait: true exactly when the
flag was observed equal to expected before the deadline expired. -/
def timed_wait_claimed (expected : Bool) (now timeout : Timespec) (sched : WaitSchedule) : Bool :=
  decide (sched.wakeNanos ≤ (wait_deadline now timeout).toNanos) &&
    (expected == sched.flagAt sched.wakeNanos)

/-- A process file-descriptor table: an association list from descriptor
number to the identity of the open file it refers to; lookup takes the first
(most recent) entry for a number. -/
abbrev FdTable := List (Nat × Nat)

/-- The open file referred to by a descriptor, if the descriptor is open. -/
def fdLookup (t : FdTable) (fd : Nat) : Option Nat :=
  (t.find? (fun e => e.1 == fd)).map (fun e => e.2)

/-- An upper bound on the descriptor numbers present in a table. -/
def maxKey (t : FdTable) : Nat := t.foldr (fun e m => max e.1 m) 0

/-- Scan upward from n for the first descriptor number not open in t. -/
def findFree (t : FdTable) : Nat → Nat → Nat
  | 0, n => n
  | fuel + 1, n => if fdLookup t n = none then n else findFree t (fuel) (n + 1)

/-- The lowest unused descriptor number, as allocated by dup and open;
maxKey t + 1 is always free, so maxKey t + 2 scan steps suffice. -/
def lowestFree (t : FdTable) : Nat := findFree t (maxKey t + 2) 0

/-- dup(x): allocate the lowest unused descriptor as a new reference to the
file x refers to.  dup of a closed descriptor fails with EBADF; that case is
modelled as a no-op and is unreachable under the openness hypotheses of the
theorems. -/
def dupFd (t : FdTable) (x : Nat) : Nat × FdTable :=
  match fdLookup t x with
  | some f => (lowestFree t, (lowestFree t, f) :: t)
  | none => (x, t)

/-- dup2(src, dst): make dst refer to the file src refers to, closing whatever
dst previously referred to. -/
def dup2Fd (t : FdTable) (src dst : Nat) : Nat × FdTable :=
  match fdLookup t src with
  | some f => (dst, (dst, f) :: t)
  | none => (src, t)

/-- open: allocate the lowest unused descriptor for a newly opened file. -/
def openFd (t : FdTable) (file : Nat) : Nat × FdTable :=
  (lowestFree t, (lowestFree t, file) :: t)

/-- closefrom(k): close every descriptor numbered k or above. -/
def closeFrom (t : FdTable) (k : Nat) : FdTable := t.filter (fun e => decide (e.1 < k))

/-- enum SandboxFileDescriptors (lines 561-595): the fixed descriptor slots the
child relies on. -/
def SharedMemRegion : Nat := 3

/-- Fixed slot of the shared pagemap page. -/
def PageMapPage : Nat := 4

/-- Fixed slot of the descriptor-passing socket. -/
def FDSocket : Nat := 5

/-- Fixed slot of the main library file. -/
def MainLibrary : Nat := 6

/-- Fixed slot of the pagemap-update socket. -/
def PageMapUpdates : Nat := 7

/-- First slot of the library-search-directory descriptors. -/
def OtherLibraries : Nat := 8

/-- last_fd (line 613): one past the last fixed slot, with three library
search directories. -/
def last_fd : Nat := OtherLibraries + 3

/-- The move_fd loop body (lines 614-621): while x < last_fd, x = dup(x),
with explicit fuel. -/
def move_fd_loop (t : FdTable) (x : Nat) : Nat → Nat × FdTable
  | 0 => (x, t)
  | fuel + 1 =>
    if x < last_fd then
      let r := dupFd t x
      move_fd_loop r.2 r.1 fuel
    else (x, t)

/-- move_fd: duplicate a descriptor until its number is at or above last_fd.
Each dup below last_fd permanently occupies one of the at most last_fd free
numbers below last_fd, so last_fd + 1 iterations always suffice for the loop
to reach its exit condition. -/
def move_fd (t : FdTable) (x : Nat) : Nat × FdTable := move_fd_loop t x (last_fd + 1)

/-- The descriptor values and table produced by the launcher sequence, plus
the list of moved source descriptors used to state the no-collision
property. -/
structure StartChildFds where
  table : FdTable
  shm_fd : Nat
  pagemap_mem : Nat
  fd_socket : Nat
  malloc_rpc_socket : Nat
  library : Nat
  libdirfds : List Nat
  movedSources : List Nat

/-- The file-descriptor manipulation of SandboxedLibrary.start_child (lines
607-689): move the four inherited descriptors above last_fd, open and move the
main library file and the three library search directories, dup2 everything
down into the fixed slots in declaration order, then close every descriptor at
or above last_fd.  File identities for the newly opened files are parameters;
libdir0File, libdir1File and libdir2File stand for /lib, /usr/lib and
/usr/local/lib. -/
def start_child_fds (t0 : FdTable)
    (shm0 pagemap0 fdsock0 rpc0 : Nat)
    (libraryFile libdir0File libdir1File libdir2File : Nat) : StartChildFds :=
  let m1 := move_fd t0 shm0
  let m2 := move_fd m1.2 pagemap0
  let m3 := move_fd m2.2 fdsock0
  let m4 := move_fd m3.2 rpc0
  let o5 := openFd m4.2 libraryFile
  let m5 := move_fd o5.2 o5.1
  let o6 := openFd m5.2 libdir0File
  let m6 := move_fd o6.2 o6.1
  let o7 := openFd m6.2 libdir1File
  let m7 := move_fd o7.2 o7.1
  let o8 := openFd m7.2 libdir2File
  let m8 := move_fd o8.2 o8.1
  let d1 := dup2Fd m8.2 m1.1 SharedMemRegion
  let d2 := dup2Fd d1.2 m2.1 PageMapPage
  let d3 := dup2Fd d2.2 m3.1 FDSocket
  let d4 := dup2Fd d3.2 m5.1 MainLibrary
  let d5 := dup2Fd d4.2 m4.1 PageMapUpdates
  let d6 := dup2Fd d5.2 m6.1 OtherLibraries
  let d7 := dup2Fd d6.2 m7.1 (OtherLibraries + 1)
  let d8 := dup2Fd d7.2 m8.1 (OtherLibraries + 2)
  { table := closeFrom d8.2 last_fd
    shm_fd := d1.1
    pagemap_mem := d2.1
    fd_socket := d3.1
    malloc_rpc_socket := d5.1
    library := d4.1
    libdirfds := [d6.1, d7.1, d8.1]
    movedSources := [m1.1, m2.1, m3.1, m4.1, m5.1, m6.1, m7.1, m8.1] }

/-- The fixed child slots, in the order they are populated. -/
def fixedSlots : List Nat :=
  [SharedMemRegion, PageMapPage, FDSocket, MainLibrary, PageMapUpdates,
    OtherLibraries, OtherLibraries + 1, OtherLibraries + 2]

/-- The number of unused descriptor numbers below last_fd: each dup performed
by the move_fd loop below last_fd strictly decreases this quantity, which is
why last_fd + 1 loop iterations always suffice. -/
def freeBelow (t : FdTable) : Nat :=
  ((Finset.range last_fd).filter (fun n => fdLookup t n = none)).card

/-- A reserve implementation used for concrete evaluations: reserve nothing. -/
def wReserve : SharedMemoryProvider → Nat → Nat × SharedMemoryProvider := fun p _ => (0, p)

/-- A concrete sandbox whose Memory Range is four superslabs starting at the
first superslab boundary. -/
def wSandbox : Sandbox :=
  ⟨⟨SUPERSLAB_SIZE, SUPERSLAB_SIZE * 4, [[], []]⟩, fun _ => 0⟩

/-- A concrete service state with wSandbox registered on channel 7. -/
def wState : ServiceState := ⟨fun _ => 0, [(7, wSandbox)]⟩

theorem lookupRange_updateRange (fd : Nat) (s2 : Sandbox) :
    ∀ (l : List (Nat × Sandbox)) (s : Sandbox), lookupRange l fd = some s →
      lookupRange (updateRange l fd s2) fd = some s2 := by
  intro l
  induction l with
  | nil => intro s h; simp [lookupRange] at h
  | cons e rest ih =>
    intro s h
    by_cases he : e.1 = fd
    · simp [lookupRange, updateRange, List.find?, he]
    · have hb : (e.1 == fd) = false := by simp [he]
      have h1 : updateRange (e :: rest) fd s2 = e :: updateRange rest fd s2 := by
        have hnb : ¬((e.1 == fd) = true) := by simp [hb]
        simp only [updateRange, List.map_cons]
        rw [if_neg hnb]
      have h2 : ∀ (l2 : List (Nat × Sandbox)), lookupRange (e :: l2) fd = lookupRange l2 fd := by
        intro l2
        simp [lookupRange, List.find?, hb]
      rw [h2] at h
      rw [h1, h2]
      exact ih s h

theorem lookupRange_updateRange_none (fd : Nat) (s2 : Sandbox) :
    ∀ (l : List (Nat × Sandbox)), lookupRange l fd = none →
      lookupRange (updateRange l fd s2) fd = none := by
  intro l
  induction l with
  | nil => intro _; rfl
  | cons e rest ih =>
    intro h
    by_cases he : e.1 = fd
    · simp [lookupRange, List.find?, he] at h
    · have hb : (e.1 == fd) = false := by simp [he]
      have h1 : updateRange (e :: rest) fd s2 = e :: updateRange rest fd s2 := by
        have hnb : ¬((e.1 == fd) = true) := by simp [hb]
        simp only [updateRange, List.map_cons]
        rw [if_neg hnb]
      have h2 : ∀ (l2 : List (Nat × Sandbox)), lookupRange (e :: l2) fd = lookupRange l2 fd := by
        intro l2
        simp [lookupRange, List.find?, hb]
      rw [h2] at h
      rw [h1, h2]
      exact ih h

theorem index_for_address_add (address i : Nat) :
    index_for_address (address + i * SUPERSLAB_SIZE) = index_for_address address + i := by
  unfold index_for_address
  exact Nat.add_mul_div_right address i (by norm_num [SUPERSLAB_SIZE])

theorem copy_entries_eq (pm : PagemapTable) (page : Nat → Nat) (address : Nat) :
    ∀ n, copy_entries pm page address (index_for_address address) n =
      fun j =>
        if index_for_address address ≤ j ∧ j < index_for_address address + n then pm j
        else page j := by
  intro n
  induction n with
  | zero =>
    funext j
    simp only [copy_entries, List.range_zero, List.foldl_nil]
    rw [if_neg (by omega)]
  | succ n ih =>
    funext j
    unfold copy_entries at ih ⊢
    rw [List.range_succ, List.foldl_append, List.foldl_cons, List.foldl_nil, ih]
    have hidx : pmGet pm (address + n * SUPERSLAB_SIZE) = pm (index_for_address address + n) := by
      unfold pmGet
      rw [index_for_address_add]
    by_cases hj : j = index_for_address address + n
    · subst hj
      rw [Function.update_same, hidx, if_pos]
      exact ⟨Nat.le_add_right _ _, by omega⟩
    · rw [Function.update_noteq hj]
      by_cases h1 : index_for_address address ≤ j ∧ j < index_for_address address + n
      · rw [if_pos h1, if_pos ⟨h1.1, by omega⟩]
      · rw [if_neg h1, if_neg (by omega)]

/-- Claim C1: a metadata mutation request (ChunkMapSet, ChunkMapSetRange or
ChunkMapClearRange) whose implied address span is not fully contained in the
requesting sandbox's Memory Range is answered with the error flag set and
result 0, and the canonical host-global pagemap table is not mutated. -/
theorem chunkmap_out_of_range_rejected
    (reserveImpl : SharedMemoryProvider → Nat → Nat × SharedMemoryProvider)
    (st : ServiceState) (fd : Nat) (rpc : HostServiceRequest) (s : Sandbox)
    (hreg : lookupRange st.ranges fd = some s)
    (hkind : isChunkMapKind rpc.kind = true)
    (hspan : impliedSpanContained s rpc = false) :
    (processMessage reserveImpl st fd rpc).2 = some ⟨1, 0⟩ ∧
    (processMessage reserveImpl st fd rpc).1.pagemap = st.pagemap := by
  obtain ⟨kind, arg0, arg1⟩ := rpc
  cases kind <;> simp [isChunkMapKind] at hkind <;>
    simp only [impliedSpanContained] at hspan <;>
    simp [processMessage, hreg, validate_and_insert, hspan]

theorem chunkmap_out_of_range_rejected_witness :
    (processMessage wReserve wState 7 ⟨.ChunkMapSet, SUPERSLAB_SIZE * 5, 42⟩).2 = some ⟨1, 0⟩ ∧
    (processMessage wReserve wState 7 ⟨.ChunkMapSet, SUPERSLAB_SIZE * 5, 42⟩).1.pagemap =
      wState.pagemap :=
  chunkmap_out_of_range_rejected wReserve wState 7 ⟨.ChunkMapSet, SUPERSLAB_SIZE * 5, 42⟩
    wSandbox (by rfl) (by rfl) (by decide)

/-- Claim C9: a metadata mutation request that fails the Memory Range check
leaves the requesting sandbox entirely unchanged, in particular its shared
read-only pagemap page, and a well-formed request on a channel with no
registered Memory Range changes nothing at all and produces no response. -/
theorem reject_or_unregistered_preserves_shared_page :
    (∀ reserveImpl st fd rpc s, lookupRange st.ranges fd = some s →
      isChunkMapKind rpc.kind = true → impliedSpanContained s rpc = false →
      lookupRange (processMessage reserveImpl st fd rpc).1.ranges fd = some s) ∧
    (∀ reserveImpl st fd rpc, lookupRange st.ranges fd = none →
      processMessage reserveImpl st fd rpc = (st, none)) := by
  constructor
  · intro reserveImpl st fd rpc s hreg hkind hspan
    obtain ⟨kind, arg0, arg1⟩ := rpc
    cases kind <;> simp [isChunkMapKind] at hkind <;>
      simp only [impliedSpanContained] at hspan <;>
      simp [processMessage, hreg, validate_and_insert, hspan,
        lookupRange_updateRange fd s st.ranges s hreg]
  · intro reserveImpl st fd rpc hreg
    simp [processMessage, hreg]

theorem reject_or_unregistered_preserves_shared_page_witness :
    lookupRange (processMessage wReserve wState 7
        ⟨.ChunkMapSet, SUPERSLAB_SIZE * 5, 42⟩).1.ranges 7 = some wSandbox ∧
    processMessage wReserve wState 9 ⟨.ChunkMapSet, SUPERSLAB_SIZE, 42⟩ = (wState, none) :=
  ⟨reject_or_unregistered_preserves_shared_page.1 wReserve wState 7
      ⟨.ChunkMapSet, SUPERSLAB_SIZE * 5, 42⟩ wSandbox (by rfl) (by rfl) (by decide),
    reject_or_unregistered_preserves_shared_page.2 wReserve wState 9
      ⟨.ChunkMapSet, SUPERSLAB_SIZE, 42⟩ (by rfl)⟩

/-- Claim C4 counterexample: a well-formed Host Call Request read on a channel
that has no registered Memory Range is dropped without any response, so the
claim that every well-formed request read by the service is acknowledged is
false: here the service returns no response at all. -/
theorem unregistered_request_gets_no_response :
    (processMessage wReserve ⟨fun _ => 0, []⟩ 3 ⟨.ChunkMapSet, 0, 0⟩).2 = none := rfl

/-- Claim C4 (amended): every well-formed Host Call Request read on a channel
with a registered Memory Range is answered with a response over the same
channel, in every dispatch branch, including every rejection branch. -/
theorem registered_request_always_acknowledged
    (reserveImpl : SharedMemoryProvider → Nat → Nat × SharedMemoryProvider)
    (st : ServiceState) (fd : Nat) (rpc : HostServiceRequest) (s : Sandbox)
    (hreg : lookupRange st.ranges fd = some s) :
    ((processMessage reserveImpl st fd rpc).2).isSome = true := by
  obtain ⟨kind, arg0, arg1⟩ := rpc
  cases kind <;> simp only [processMessage, hreg] <;> split <;> simp

theorem registered_request_always_acknowledged_witness :
    ((processMessage wReserve wState 7 ⟨.MemoryProviderPopLargeStack, 0, 300⟩).2).isSome = true :=
  registered_request_always_acknowledged wReserve wState 7
    ⟨.MemoryProviderPopLargeStack, 0, 300⟩ wSandbox (by rfl)

/-- Claim C2: a metadata mutation request fully contained in the requesting
sandbox's Memory Range is answered with error 0, is applied to the canonical
table, and the child's shared page afterwards holds the updated canonical
entries at exactly the indices covering the mutated span — the requested size
divided by the bucket granularity many entries (one for a plain set) starting
at the index of the mutated address — and is unchanged everywhere else. -/
theorem chunkmap_in_range_applied_and_copied
    (reserveImpl : SharedMemoryProvider → Nat → Nat × SharedMemoryProvider)
    (st : ServiceState) (fd : Nat) (rpc : HostServiceRequest) (s : Sandbox)
    (hreg : lookupRange st.ranges fd = some s)
    (hkind : isChunkMapKind rpc.kind = true)
    (hspan : impliedSpanContained s rpc = true) :
    (processMessage reserveImpl st fd rpc).2 = some ⟨0, 0⟩ ∧
    (processMessage reserveImpl st fd rpc).1.pagemap = canonicalApply st.pagemap rpc ∧
    lookupRange (processMessage reserveImpl st fd rpc).1.ranges fd =
      some { s with shared_page := fun j =>
        if index_for_address rpc.arg0 ≤ j ∧ j < index_for_address rpc.arg0 + entriesFor rpc
        then canonicalApply st.pagemap rpc j
        else s.shared_page j } := by
  obtain ⟨kind, arg0, arg1⟩ := rpc
  cases kind <;> simp [isChunkMapKind] at hkind <;>
    simp only [impliedSpanContained] at hspan <;>
    simp only [processMessage, hreg, validate_and_insert, hspan, if_true, entriesFor,
      canonicalApply, copy_entries_eq] <;>
    exact ⟨trivial, trivial, lookupRange_updateRange fd _ st.ranges s hreg⟩

theorem chunkmap_in_range_applied_and_copied_witness :
    (processMessage wReserve wState 7 ⟨.ChunkMapSetRange, SUPERSLAB_SIZE, 26⟩).2 =
      some ⟨0, 0⟩ ∧
    (processMessage wReserve wState 7 ⟨.ChunkMapSetRange, SUPERSLAB_SIZE, 26⟩).1.pagemap =
      canonicalApply wState.pagemap ⟨.ChunkMapSetRange, SUPERSLAB_SIZE, 26⟩ ∧
    lookupRange (processMessage wReserve wState 7
        ⟨.ChunkMapSetRange, SUPERSLAB_SIZE, 26⟩).1.ranges 7 =
      some { wSandbox with shared_page := fun j =>
        if index_for_address SUPERSLAB_SIZE ≤ j ∧
            j < index_for_address SUPERSLAB_SIZE + entriesFor ⟨.ChunkMapSetRange, SUPERSLAB_SIZE, 26⟩
        then canonicalApply wState.pagemap ⟨.ChunkMapSetRange, SUPERSLAB_SIZE, 26⟩ j
        else wSandbox.shared_page j } :=
  chunkmap_in_range_applied_and_copied wReserve wState 7 ⟨.ChunkMapSetRange, SUPERSLAB_SIZE, 26⟩
    wSandbox (by rfl) (by rfl) (by decide)

/-- Claim C3 counterexample: a MemoryProviderPopLargeStack request whose
address argument lies far outside the registered Memory Range but whose size
class is valid is answered with error 0, not error 1, so the claim that the
service replies with error 1 on any out-of-range address for every large-block
request is false. -/
theorem pop_ignores_address_argument :
    wSandbox.memory_provider.contains (SUPERSLAB_SIZE * 100) (large_sizeclass_to_size 0) =
      false ∧
    (processMessage wReserve wState 7
      ⟨.MemoryProviderPopLargeStack, SUPERSLAB_SIZE * 100, 0⟩).2 = some ⟨0, 0⟩ := by
  exact ⟨by decide, rfl⟩

/-- Claim C3 (amended): a push request is validated, before any mutation of
the free-block pool, to have a valid size class and an address span inside the
Memory Range, and is rejected with error 1 leaving the state unchanged
otherwise; pop and reserve requests, which carry no address to validate, are
validated only for the size class and rejected with error 1 leaving the state
unchanged on an out-of-range size class. -/
theorem large_block_request_validation
    (reserveImpl : SharedMemoryProvider → Nat → Nat × SharedMemoryProvider)
    (st : ServiceState) (fd : Nat) (rpc : HostServiceRequest) (s : Sandbox)
    (hreg : lookupRange st.ranges fd = some s) :
    (rpc.kind = .MemoryProviderPushLargeStack →
      (is_large_sizeclass (rpc.arg1 % 256) &&
        s.memory_provider.contains rpc.arg0 (large_sizeclass_to_size (rpc.arg1 % 256))) =
          false →
      processMessage reserveImpl st fd rpc = (st, some ⟨1, 0⟩)) ∧
    (rpc.kind = .MemoryProviderPopLargeStack →
      is_large_sizeclass (rpc.arg1 % 256) = false →
      processMessage reserveImpl st fd rpc = (st, some ⟨1, 0⟩)) ∧
    (rpc.kind = .MemoryProviderReserve →
      is_large_sizeclass (rpc.arg1 % 256) = false →
      processMessage reserveImpl st fd rpc = (st, some ⟨1, 0⟩)) ∧
    (rpc.kind = .MemoryProviderPushLargeStack →
      (is_large_sizeclass (rpc.arg1 % 256) &&
        s.memory_provider.contains rpc.arg0 (large_sizeclass_to_size (rpc.arg1 % 256))) =
          true →
      processMessage reserveImpl st fd rpc =
        (⟨st.pagemap,
            updateRange st.ranges fd
              ⟨push_large_stack s.memory_provider rpc.arg0 (rpc.arg1 % 256),
                s.shared_page⟩⟩,
          some ⟨0, 0⟩)) := by
  obtain ⟨kind, arg0, arg1⟩ := rpc
  refine ⟨?_, ?_, ?_, ?_⟩ <;> intro hk hcond <;> subst hk <;>
    simp [processMessage, hreg, hcond]

theorem large_block_request_validation_witness :
    processMessage wReserve wState 7 ⟨.MemoryProviderPushLargeStack, 0, 0⟩ =
      (wState, some ⟨1, 0⟩) :=
  (large_block_request_validation wReserve wState 7 ⟨.MemoryProviderPushLargeStack, 0, 0⟩
    wSandbox (by rfl)).1 rfl (by decide)

/-- Claim C10: a MemoryProviderPopLargeStack request with an in-range size
class is answered with error 0 and the popped block address as the result,
and when the free-block pool for that size class is empty the answer is
error 0 with the null address 0 as the result, so emptiness is signalled
in-band by a null result and never by the error flag. -/
theorem pop_in_range_error_zero_null_on_empty
    (reserveImpl : SharedMemoryProvider → Nat → Nat × SharedMemoryProvider)
    (st : ServiceState) (fd : Nat) (rpc : HostServiceRequest) (s : Sandbox)
    (hreg : lookupRange st.ranges fd = some s)
    (hkind : rpc.kind = .MemoryProviderPopLargeStack)
    (hls : is_large_sizeclass (rpc.arg1 % 256) = true) :
    (processMessage reserveImpl st fd rpc).2 =
      some ⟨0, (pop_large_stack s.memory_provider (rpc.arg1 % 256)).1⟩ ∧
    (s.memory_provider.largeStacks.getD (rpc.arg1 % 256) [] = [] →
      (processMessage reserveImpl st fd rpc).2 = some ⟨0, 0⟩) := by
  obtain ⟨kind, arg0, arg1⟩ := rpc
  simp only at hkind
  subst hkind
  constructor
  · simp [processMessage, hreg, hls]
  · intro hempty
    simp only at hempty
    have hpop : pop_large_stack s.memory_provider (arg1 % 256) = (0, s.memory_provider) := by
      unfold pop_large_stack
      rw [hempty]
    simp [processMessage, hreg, hls, hpop]

theorem pop_in_range_error_zero_null_on_empty_witness :
    (processMessage wReserve wState 7 ⟨.MemoryProviderPopLargeStack, 12345, 1⟩).2 =
      some ⟨0, (pop_large_stack wSandbox.memory_provider (1 % 256)).1⟩ ∧
    (wSandbox.memory_provider.largeStacks.getD (1 % 256) [] = [] →
      (processMessage wReserve wState 7 ⟨.MemoryProviderPopLargeStack, 12345, 1⟩).2 =
        some ⟨0, 0⟩) :=
  pop_in_range_error_zero_null_on_empty wReserve wState 7
    ⟨.MemoryProviderPopLargeStack, 12345, 1⟩ wSandbox (by rfl) rfl (by decide)

/-- Claim C5: alloc_in_sandbox returns the null result whenever the product
element size times count overflows the 64-bit size type, and otherwise
delegates the exact product to the restricted allocator. -/
theorem alloc_in_sandbox_overflow_check (allocImpl : Nat → Nat) (bytes count : Nat) :
    (2 ^ 64 ≤ bytes * count → alloc_in_sandbox allocImpl bytes count = 0) ∧
    (bytes * count < 2 ^ 64 →
      alloc_in_sandbox allocImpl bytes count = allocImpl (bytes * count)) := by
  constructor
  · intro h
    unfold alloc_in_sandbox
    rw [if_pos h]
  · intro h
    have h2 : ¬(2 ^ 64 ≤ bytes * count) := by omega
    unfold alloc_in_sandbox
    rw [if_neg h2, Nat.mod_eq_of_lt h]

theorem alloc_in_sandbox_overflow_check_witness :
    (2 ^ 64 ≤ 2 ^ 63 * 2 ∧ alloc_in_sandbox (fun sz => sz + 1) (2 ^ 63) 2 = 0) ∧
    ((2 ^ 64 - 1) * 1 < 2 ^ 64 ∧
      alloc_in_sandbox (fun sz => sz + 1) (2 ^ 64 - 1) 1 = (2 ^ 64 - 1) * 1 + 1) :=
  ⟨⟨by norm_num,
      (alloc_in_sandbox_overflow_check (fun sz => sz + 1) (2 ^ 63) 2).1 (by norm_num)⟩,
    ⟨by norm_num,
      (alloc_in_sandbox_overflow_check (fun sz => sz + 1) (2 ^ 64 - 1) 1).2 (by norm_num)⟩⟩

theorem send_loop_detects_aux (cf ce : Nat → Bool) (k : Nat)
    (hfin : ∀ i, i ≤ k → cf i = false) (hex : ce k = true) :
    ∀ fuel i, i ≤ k → k < i + fuel →
      send_loop cf ce fuel i = some .abnormalTermination := by
  intro fuel
  induction fuel with
  | zero =>
    intro i h1 h2
    omega
  | succ n ih =>
    intro i h1 h2
    rw [send_loop, hfin i h1]
    simp only [Bool.false_eq_true, if_false]
    by_cases hce : ce i = true
    · rw [hce]
      simp
    · have hne : i ≠ k := fun he => hce (he ▸ hex)
      rw [Bool.not_eq_true] at hce
      rw [hce]
      simp only [Bool.false_eq_true, if_false]
      exact ih (i + 1) (by omega) (by omega)

/-- Claim C6: if the child process has exited by wait-loop iteration k while a
call is outstanding and, being dead, never signals completion, then the send
wait loop returns the abnormal-termination failure within k + 1 timeout
iterations — the liveness check on a timeout detects the exit — instead of
blocking indefinitely. -/
theorem send_detects_child_exit (cf ce : Nat → Bool) (k fuel : Nat)
    (hfin : ∀ i, i ≤ k → cf i = false)
    (hex : ce k = true) (hfuel : k < fuel) :
    send_loop cf ce fuel 0 = some .abnormalTermination :=
  send_loop_detects_aux cf ce k hfin hex fuel 0 (Nat.zero_le k) (by omega)

theorem send_detects_child_exit_witness :
    send_loop (fun _ => false) (fun _ => true) 3 0 = some .abnormalTermination :=
  send_detects_child_exit (fun _ => false) (fun _ => true) 0 3 (fun _ _ => rfl) rfl
    (by norm_num)

/-- Claim C7 counterexample: with now 0 and timeout 100000 ns the deadline is
100000 ns; in a run where the timed wait only returns at 200000 ns — after the
deadline expired — with the flag then equal to expected, wait returns true,
while the claimed behaviour (true exactly when the flag was observed equal to
expected before the deadline) demands false, so the claimed equivalence fails
at this input. -/
theorem timed_wait_disagrees_with_claim :
    timed_wait true ⟨0, 0⟩ ⟨0, 100000⟩ ⟨200000, fun _ => true⟩ = true ∧
    timed_wait_claimed true ⟨0, 0⟩ ⟨0, 100000⟩ ⟨200000, fun _ => true⟩ = false := by
  exact ⟨rfl, by decide⟩

/-- Claim C7 (amended): the timed wait returns true exactly when
is_child_executing equals expected at the single read performed after the
timed wait returns control, whether or not that happened before the deadline:
the returned value is independent of the deadline arguments. -/
theorem timed_wait_returns_flag_at_wakeup (expected : Bool)
    (now timeout now2 timeout2 : Timespec) (sched : WaitSchedule) :
    timed_wait expected now timeout sched = (expected == sched.flagAt sched.wakeNanos) ∧
    timed_wait expected now timeout sched = timed_wait expected now2 timeout2 sched :=
  ⟨rfl, rfl⟩

theorem fdLookup_cons (d f : Nat) (t : FdTable) (y : Nat) :
    fdLookup ((d, f) :: t) y = if d = y then some f else fdLookup t y := by
  by_cases h : d = y
  · simp [fdLookup, List.find?, h]
  · have hb : (d == y) = false := by simp [h]
    simp [fdLookup, List.find?, hb, h]

theorem key_le_maxKey : ∀ (t : FdTable) (e : Nat × Nat), e ∈ t → e.1 ≤ maxKey t := by
  intro t
  induction t with
  | nil =>
    intro e he
    cases he
  | cons a rest ih =>
    intro e he
    have hmax : maxKey (a :: rest) = max a.1 (maxKey rest) := rfl
    rcases List.mem_cons.mp he with h | h
    · rw [h, hmax]
      exact le_max_left _ _
    · calc e.1 ≤ maxKey rest := ih e h
        _ ≤ maxKey (a :: rest) := by rw [hmax]; exact le_max_right _ _

theorem fdLookup_gt_maxKey (t : FdTable) (y : Nat) (h : maxKey t < y) :
    fdLookup t y = none := by
  unfold fdLookup
  cases hf : t.find? (fun e => e.1 == y) with
  | none => rfl
  | some e =>
    have hm := List.mem_of_find?_eq_some hf
    have hp := List.find?_some hf
    have he : e.1 = y := by simpa using hp
    have := key_le_maxKey t e hm
    omega

theorem findFree_free (t : FdTable) :
    ∀ fuel n, (∃ m, n ≤ m ∧ m < n + fuel ∧ fdLookup t m = none) →
      fdLookup t (findFree t fuel n) = none := by
  intro fuel
  induction fuel with
  | zero =>
    rintro n ⟨m, hm1, hm2, _⟩
    omega
  | succ k ih =>
    rintro n ⟨m, hm1, hm2, hm3⟩
    rw [findFree]
    by_cases hn : fdLookup t n = none
    · rw [if_pos hn]
      exact hn
    · rw [if_neg hn]
      have hne : n ≠ m := fun he => hn (he ▸ hm3)
      exact ih (n + 1) ⟨m, by omega, by omega, hm3⟩

theorem fdLookup_lowestFree (t : FdTable) : fdLookup t (lowestFree t) = none :=
  findFree_free t (maxKey t + 2) 0
    ⟨maxKey t + 1, Nat.zero_le _, by omega, fdLookup_gt_maxKey t _ (by omega)⟩

theorem dupFd_preserves (t : FdTable) (x y g : Nat) (hy : fdLookup t y = some g) :
    fdLookup (dupFd t x).2 y = some g := by
  have hfree := fdLookup_lowestFree t
  unfold dupFd
  cases hx : fdLookup t x with
  | none => exact hy
  | some f =>
    have hne : ¬(lowestFree t = y) := by
      intro he
      rw [he, hy] at hfree
      cases hfree
    simp only
    rw [fdLookup_cons, if_neg hne]
    exact hy

theorem dupFd_self (t : FdTable) (x f : Nat) (hx : fdLookup t x = some f) :
    fdLookup (dupFd t x).2 (dupFd t x).1 = some f := by
  unfold dupFd
  rw [hx]
  simp only
  rw [fdLookup_cons, if_pos rfl]

theorem openFd_self (t : FdTable) (file : Nat) :
    fdLookup (openFd t file).2 (openFd t file).1 = some file := by
  unfold openFd
  simp only
  rw [fdLookup_cons, if_pos rfl]

theorem openFd_preserves (t : FdTable) (file y g : Nat) (hy : fdLookup t y = some g) :
    fdLookup (openFd t file).2 y = some g := by
  have hfree := fdLookup_lowestFree t
  have hne : ¬(lowestFree t = y) := by
    intro he
    rw [he, hy] at hfree
    cases hfree
  unfold openFd
  simp only
  rw [fdLookup_cons, if_neg hne]
  exact hy

theorem dup2Fd_eq (t : FdTable) (src dst f : Nat) (h : fdLookup t src = some f) :
    dup2Fd t src dst = (dst, (dst, f) :: t) := by
  unfold dup2Fd
  rw [h]

theorem freeBelow_cons_lt (t : FdTable) (d g : Nat) (hd : fdLookup t d = none)
    (hlt : d < last_fd) : freeBelow ((d, g) :: t) < freeBelow t := by
  unfold freeBelow
  have hsub : (Finset.range last_fd).filter (fun n => fdLookup ((d, g) :: t) n = none) =
      ((Finset.range last_fd).filter (fun n => fdLookup t n = none)).erase d := by
    ext n
    simp only [Finset.mem_filter, Finset.mem_erase, Finset.mem_range, fdLookup_cons]
    constructor
    · rintro ⟨hn, hcond⟩
      by_cases he : d = n
      · rw [if_pos he] at hcond
        cases hcond
      · rw [if_neg he] at hcond
        exact ⟨fun hne => he hne.symm, hn, hcond⟩
    · rintro ⟨hne, hn, hcond⟩
      refine ⟨hn, ?_⟩
      rw [if_neg (fun he => hne he.symm)]
      exact hcond
  rw [hsub]
  have hdmem : d ∈ (Finset.range last_fd).filter (fun n => fdLookup t n = none) := by
    simp only [Finset.mem_filter, Finset.mem_range]
    exact ⟨hlt, hd⟩
  exact Finset.card_erase_lt_of_mem hdmem

theorem move_fd_loop_spec :
    ∀ (fuel : Nat) (t : FdTable) (x f : Nat), fdLookup t x = some f →
      (freeBelow t < fuel ∨ last_fd ≤ x) →
      last_fd ≤ (move_fd_loop t x fuel).1 ∧
      fdLookup (move_fd_loop t x fuel).2 (move_fd_loop t x fuel).1 = some f ∧
      (∀ y g, fdLookup t y = some g → fdLookup (move_fd_loop t x fuel).2 y = some g) := by
  intro fuel
  induction fuel with
  | zero =>
    intro t x f hx hdisj
    rcases hdisj with h | h
    · omega
    · exact ⟨h, hx, fun y g hy => hy⟩
  | succ k ih =>
    intro t x f hx hdisj
    rw [move_fd_loop]
    by_cases hxlt : x < last_fd
    · rw [if_pos hxlt]
      have hfree := fdLookup_lowestFree t
      have hd : dupFd t x = (lowestFree t, (lowestFree t, f) :: t) := by
        unfold dupFd
        rw [hx]
      simp only [hd]
      have hxn : fdLookup ((lowestFree t, f) :: t) (lowestFree t) = some f := by
        rw [fdLookup_cons, if_pos rfl]
      have hpres : ∀ y g, fdLookup t y = some g →
          fdLookup ((lowestFree t, f) :: t) y = some g := by
        intro y g hy
        have hne : ¬(lowestFree t = y) := by
          intro he
          rw [he, hy] at hfree
          cases hfree
        rw [fdLookup_cons, if_neg hne]
        exact hy
      have hdisj2 : freeBelow ((lowestFree t, f) :: t) < k ∨ last_fd ≤ lowestFree t := by
        by_cases hdn : lowestFree t < last_fd
        · left
          have hless := freeBelow_cons_lt t (lowestFree t) f hfree hdn
          rcases hdisj with hfb | hge
          · omega
          · omega
        · right
          omega
      obtain ⟨rge, rself, rpres⟩ := ih ((lowestFree t, f) :: t) (lowestFree t) f hxn hdisj2
      exact ⟨rge, rself, fun y g hy => rpres y g (hpres y g hy)⟩
    · rw [if_neg hxlt]
      exact ⟨by omega, hx, fun y g hy => hy⟩

theorem freeBelow_le (t : FdTable) : freeBelow t ≤ last_fd := by
  unfold freeBelow
  calc ((Finset.range last_fd).filter (fun n => fdLookup t n = none)).card
      ≤ (Finset.range last_fd).card := Finset.card_filter_le _ _
    _ = last_fd := Finset.card_range _

theorem move_fd_spec (t : FdTable) (x f : Nat) (hx : fdLookup t x = some f) :
    last_fd ≤ (move_fd t x).1 ∧
    fdLookup (move_fd t x).2 (move_fd t x).1 = some f ∧
    (∀ y g, fdLookup t y = some g → fdLookup (move_fd t x).2 y = some g) := by
  apply move_fd_loop_spec (last_fd + 1) t x f hx
  left
  have := freeBelow_le t
  omega

theorem fdLookup_closeFrom (k y : Nat) :
    ∀ (t : FdTable), fdLookup (closeFrom t k) y = if y < k then fdLookup t y else none := by
  intro t
  induction t with
  | nil =>
    show fdLookup [] y = if y < k then fdLookup [] y else none
    split <;> rfl
  | cons e rest ih =>
    obtain ⟨d, f⟩ := e
    unfold closeFrom at ih ⊢
    by_cases hd : d < k
    · rw [List.filter_cons_of_pos (by simpa using hd), fdLookup_cons]
      by_cases hdy : d = y
      · subst hdy
        rw [if_pos rfl, if_pos hd, fdLookup_cons, if_pos rfl]
      · rw [if_neg hdy, ih, fdLookup_cons]
        by_cases hyk : y < k
        · rw [if_pos hyk, if_pos hyk, if_neg hdy]
        · rw [if_neg hyk, if_neg hyk]
    · rw [List.filter_cons_of_neg (by simpa using hd), ih]
      by_cases hyk : y < k
      · rw [if_pos hyk, if_pos hyk, fdLookup_cons, if_neg (by omega)]
      · rw [if_neg hyk, if_neg hyk]

theorem fdLookup_cons_ne (d f y : Nat) (t : FdTable) (h : d ≠ y) :
    fdLookup ((d, f) :: t) y = fdLookup t y := by
  rw [fdLookup_cons, if_neg h]

/-- Claim C8: in the launcher, every descriptor destined for the child is
first duplicated until its number is at or above last_fd, one past the last
fixed slot, and only then duplicated down into its fixed slot, so populating
the fixed slots never overwrites a source descriptor that has not yet been
moved; the resulting table maps the fixed slots, starting at base index 3, to
the shared-heap segment, shared metadata page, descriptor-passing channel,
main library file, metadata-update channel and the three library-search
directories, in that exact order. -/
theorem start_child_fd_layout (t0 : FdTable)
    (shm0 pagemap0 fdsock0 rpc0 fShm fPm fSock fRpc fLib f0 f1 f2 : Nat)
    (h1 : fdLookup t0 shm0 = some fShm)
    (h2 : fdLookup t0 pagemap0 = some fPm)
    (h3 : fdLookup t0 fdsock0 = some fSock)
    (h4 : fdLookup t0 rpc0 = some fRpc) :
    (∀ srcFd ∈ (start_child_fds t0 shm0 pagemap0 fdsock0 rpc0 fLib f0 f1 f2).movedSources,
      last_fd ≤ srcFd) ∧
    (∀ slot ∈ fixedSlots,
      ∀ srcFd ∈ (start_child_fds t0 shm0 pagemap0 fdsock0 rpc0 fLib f0 f1 f2).movedSources,
      slot ≠ srcFd) ∧
    fdLookup (start_child_fds t0 shm0 pagemap0 fdsock0 rpc0 fLib f0 f1 f2).table
      SharedMemRegion = some fShm ∧
    fdLookup (start_child_fds t0 shm0 pagemap0 fdsock0 rpc0 fLib f0 f1 f2).table
      PageMapPage = some fPm ∧
    fdLookup (start_child_fds t0 shm0 pagemap0 fdsock0 rpc0 fLib f0 f1 f2).table
      FDSocket = some fSock ∧
    fdLookup (start_child_fds t0 shm0 pagemap0 fdsock0 rpc0 fLib f0 f1 f2).table
      MainLibrary = some fLib ∧
    fdLookup (start_child_fds t0 shm0 pagemap0 fdsock0 rpc0 fLib f0 f1 f2).table
      PageMapUpdates = some fRpc ∧
    fdLookup (start_child_fds t0 shm0 pagemap0 fdsock0 rpc0 fLib f0 f1 f2).table
      OtherLibraries = some f0 ∧
    fdLookup (start_child_fds t0 shm0 pagemap0 fdsock0 rpc0 fLib f0 f1 f2).table
      (OtherLibraries + 1) = some f1 ∧
    fdLookup (start_child_fds t0 shm0 pagemap0 fdsock0 rpc0 fLib f0 f1 f2).table
      (OtherLibraries + 2) = some f2 := by
  simp only [start_child_fds]
  set m1 := move_fd t0 shm0 with hm1
  set m2 := move_fd m1.2 pagemap0 with hm2
  set m3 := move_fd m2.2 fdsock0 with hm3
  set m4 := move_fd m3.2 rpc0 with hm4
  set o5 := openFd m4.2 fLib with ho5
  set m5 := move_fd o5.2 o5.1 with hm5
  set o6 := openFd m5.2 f0 with ho6
  set m6 := move_fd o6.2 o6.1 with hm6
  set o7 := openFd m6.2 f1 with ho7
  set m7 := move_fd o7.2 o7.1 with hm7
  set o8 := openFd m7.2 f2 with ho8
  set m8 := move_fd o8.2 o8.1 with hm8
  obtain ⟨ge1, self1, pres1⟩ : last_fd ≤ m1.1 ∧ fdLookup m1.2 m1.1 = some fShm ∧
      ∀ y g, fdLookup t0 y = some g → fdLookup m1.2 y = some g :=
    move_fd_spec t0 shm0 fShm h1
  obtain ⟨ge2, self2, pres2⟩ : last_fd ≤ m2.1 ∧ fdLookup m2.2 m2.1 = some fPm ∧
      ∀ y g, fdLookup m1.2 y = some g → fdLookup m2.2 y = some g :=
    move_fd_spec m1.2 pagemap0 fPm (pres1 _ _ h2)
  obtain ⟨ge3, self3, pres3⟩ : last_fd ≤ m3.1 ∧ fdLookup m3.2 m3.1 = some fSock ∧
      ∀ y g, fdLookup m2.2 y = some g → fdLookup m3.2 y = some g :=
    move_fd_spec m2.2 fdsock0 fSock (pres2 _ _ (pres1 _ _ h3))
  obtain ⟨ge4, self4, pres4⟩ : last_fd ≤ m4.1 ∧ fdLookup m4.2 m4.1 = some fRpc ∧
      ∀ y g, fdLookup m3.2 y = some g → fdLookup m4.2 y = some g :=
    move_fd_spec m3.2 rpc0 fRpc (pres3 _ _ (pres2 _ _ (pres1 _ _ h4)))
  obtain ⟨ge5, self5, pres5⟩ : last_fd ≤ m5.1 ∧ fdLookup m5.2 m5.1 = some fLib ∧
      ∀ y g, fdLookup o5.2 y = some g → fdLookup m5.2 y = some g :=
    move_fd_spec o5.2 o5.1 fLib (openFd_self m4.2 fLib)
  obtain ⟨ge6, self6, pres6⟩ : last_fd ≤ m6.1 ∧ fdLookup m6.2 m6.1 = some f0 ∧
      ∀ y g, fdLookup o6.2 y = some g → fdLookup m6.2 y = some g :=
    move_fd_spec o6.2 o6.1 f0 (openFd_self m5.2 f0)
  obtain ⟨ge7, self7, pres7⟩ : last_fd ≤ m7.1 ∧ fdLookup m7.2 m7.1 = some f1 ∧
      ∀ y g, fdLookup o7.2 y = some g → fdLookup m7.2 y = some g :=
    move_fd_spec o7.2 o7.1 f1 (openFd_self m6.2 f1)
  obtain ⟨ge8, self8, pres8⟩ : last_fd ≤ m8.1 ∧ fdLookup m8.2 m8.1 = some f2 ∧
      ∀ y g, fdLookup o8.2 y = some g → fdLookup m8.2 y = some g :=
    move_fd_spec o8.2 o8.1 f2 (openFd_self m7.2 f2)
  have ge1n : 11 ≤ m1.1 := by simpa [last_fd, OtherLibraries] using ge1
  have ge2n : 11 ≤ m2.1 := by simpa [last_fd, OtherLibraries] using ge2
  have ge3n : 11 ≤ m3.1 := by simpa [last_fd, OtherLibraries] using ge3
  have ge4n : 11 ≤ m4.1 := by simpa [last_fd, OtherLibraries] using ge4
  have ge5n : 11 ≤ m5.1 := by simpa [last_fd, OtherLibraries] using ge5
  have ge6n : 11 ≤ m6.1 := by simpa [last_fd, OtherLibraries] using ge6
  have ge7n : 11 ≤ m7.1 := by simpa [last_fd, OtherLibraries] using ge7
  have ge8n : 11 ≤ m8.1 := by simpa [last_fd, OtherLibraries] using ge8
  have prop58 : ∀ y g, fdLookup m5.2 y = some g → fdLookup m8.2 y = some g := fun y g hy =>
    pres8 _ _ (openFd_preserves m7.2 f2 _ _ (pres7 _ _ (openFd_preserves m6.2 f1 _ _
      (pres6 _ _ (openFd_preserves m5.2 f0 _ _ hy)))))
  have prop48 : ∀ y g, fdLookup m4.2 y = some g → fdLookup m8.2 y = some g := fun y g hy =>
    prop58 _ _ (pres5 _ _ (openFd_preserves m4.2 fLib _ _ hy))
  have q1 : fdLookup m8.2 m1.1 = some fShm :=
    prop48 _ _ (pres4 _ _ (pres3 _ _ (pres2 _ _ self1)))
  have q2 : fdLookup m8.2 m2.1 = some fPm := prop48 _ _ (pres4 _ _ (pres3 _ _ self2))
  have q3 : fdLookup m8.2 m3.1 = some fSock := prop48 _ _ (pres4 _ _ self3)
  have q4 : fdLookup m8.2 m4.1 = some fRpc := prop48 _ _ self4
  have q5 : fdLookup m8.2 m5.1 = some fLib := prop58 _ _ self5
  have q6 : fdLookup m8.2 m6.1 = some f0 :=
    pres8 _ _ (openFd_preserves m7.2 f2 _ _ (pres7 _ _ (openFd_preserves m6.2 f1 _ _ self6)))
  have q7 : fdLookup m8.2 m7.1 = some f1 := pres8 _ _ (openFd_preserves m7.2 f2 _ _ self7)
  have q8 : fdLookup m8.2 m8.1 = some f2 := self8
  have hne : ∀ v s : Nat, v < 11 → 11 ≤ s → v ≠ s := by
    intro v s hv hs he
    omega
  have e1 : (dup2Fd m8.2 m1.1 SharedMemRegion).2 = (SharedMemRegion, fShm) :: m8.2 := by
    rw [dup2Fd_eq _ _ _ _ q1]
  have r2 : fdLookup ((SharedMemRegion, fShm) :: m8.2) m2.1 = some fPm := by
    rw [fdLookup_cons_ne _ _ _ _ (hne _ _ (by decide) ge2n)]
    exact q2
  have e2 : (dup2Fd ((SharedMemRegion, fShm) :: m8.2) m2.1 PageMapPage).2 =
      (PageMapPage, fPm) :: (SharedMemRegion, fShm) :: m8.2 := by
    rw [dup2Fd_eq _ _ _ _ r2]
  have r3 : fdLookup ((PageMapPage, fPm) :: (SharedMemRegion, fShm) :: m8.2) m3.1 =
      some fSock := by
    rw [fdLookup_cons_ne _ _ _ _ (hne _ _ (by decide) ge3n),
      fdLookup_cons_ne _ _ _ _ (hne _ _ (by decide) ge3n)]
    exact q3
  have e3 : (dup2Fd ((PageMapPage, fPm) :: (SharedMemRegion, fShm) :: m8.2) m3.1
        FDSocket).2 =
      (FDSocket, fSock) :: (PageMapPage, fPm) :: (SharedMemRegion, fShm) :: m8.2 := by
    rw [dup2Fd_eq _ _ _ _ r3]
  have r5 : fdLookup ((FDSocket, fSock) :: (PageMapPage, fPm) ::
        (SharedMemRegion, fShm) :: m8.2) m5.1 = some fLib := by
    rw [fdLookup_cons_ne _ _ _ _ (hne _ _ (by decide) ge5n),
      fdLookup_cons_ne _ _ _ _ (hne _ _ (by decide) ge5n),
      fdLookup_cons_ne _ _ _ _ (hne _ _ (by decide) ge5n)]
    exact q5
  have e4 : (dup2Fd ((FDSocket, fSock) :: (PageMapPage, fPm) ::
        (SharedMemRegion, fShm) :: m8.2) m5.1 MainLibrary).2 =
      (MainLibrary, fLib) :: (FDSocket, fSock) :: (PageMapPage, fPm) ::
        (SharedMemRegion, fShm) :: m8.2 := by
    rw [dup2Fd_eq _ _ _ _ r5]
  have r4 : fdLookup ((MainLibrary, fLib) :: (FDSocket, fSock) :: (PageMapPage, fPm) ::
        (SharedMemRegion, fShm) :: m8.2) m4.1 = some fRpc := by
    rw [fdLookup_cons_ne _ _ _ _ (hne _ _ (by decide) ge4n),
      fdLookup_cons_ne _ _ _ _ (hne _ _ (by decide) ge4n),
      fdLookup_cons_ne _ _ _ _ (hne _ _ (by decide) ge4n),
      fdLookup_cons_ne _ _ _ _ (hne _ _ (by decide) ge4n)]
    exact q4
  have e5 : (dup2Fd ((MainLibrary, fLib) :: (FDSocket, fSock) :: (PageMapPage, fPm) ::
        (SharedMemRegion, fShm) :: m8.2) m4.1 PageMapUpdates).2 =
      (PageMapUpdates, fRpc) :: (MainLibrary, fLib) :: (FDSocket, fSock) ::
        (PageMapPage, fPm) :: (SharedMemRegion, fShm) :: m8.2 := by
    rw [dup2Fd_eq _ _ _ _ r4]
  have r6 : fdLookup ((PageMapUpdates, fRpc) :: (MainLibrary, fLib) :: (FDSocket, fSock) ::
        (PageMapPage, fPm) :: (SharedMemRegion, fShm) :: m8.2) m6.1 = some f0 := by
    rw [fdLookup_cons_ne _ _ _ _ (hne _ _ (by decide) ge6n),
      fdLookup_cons_ne _ _ _ _ (hne _ _ (by decide) ge6n),
      fdLookup_cons_ne _ _ _ _ (hne _ _ (by decide) ge6n),
      fdLookup_cons_ne _ _ _ _ (hne _ _ (by decide) ge6n),
      fdLookup_cons_ne _ _ _ _ (hne _ _ (by decide) ge6n)]
    exact q6
  have e6 : (dup2Fd ((PageMapUpdates, fRpc) :: (MainLibrary, fLib) :: (FDSocket, fSock) ::
        (PageMapPage, fPm) :: (SharedMemRegion, fShm) :: m8.2) m6.1 OtherLibraries).2 =
      (OtherLibraries, f0) :: (PageMapUpdates, fRpc) :: (MainLibrary, fLib) ::
        (FDSocket, fSock) :: (PageMapPage, fPm) :: (SharedMemRegion, fShm) :: m8.2 := by
    rw [dup2Fd_eq _ _ _ _ r6]
  have r7 : fdLookup ((OtherLibraries, f0) :: (PageMapUpdates, fRpc) :: (MainLibrary, fLib) ::
        (FDSocket, fSock) :: (PageMapPage, fPm) :: (SharedMemRegion, fShm) :: m8.2) m7.1 =
      some f1 := by
    rw [fdLookup_cons_ne _ _ _ _ (hne _ _ (by decide) ge7n),
      fdLookup_cons_ne _ _ _ _ (hne _ _ (by decide) ge7n),
      fdLookup_cons_ne _ _ _ _ (hne _ _ (by decide) ge7n),
      fdLookup_cons_ne _ _ _ _ (hne _ _ (by decide) ge7n),
      fdLookup_cons_ne _ _ _ _ (hne _ _ (by decide) ge7n),
      fdLookup_cons_ne _ _ _ _ (hne _ _ (by decide) ge7n)]
    exact q7
  have e7 : (dup2Fd ((OtherLibraries, f0) :: (PageMapUpdates, fRpc) :: (MainLibrary, fLib) ::
        (FDSocket, fSock) :: (PageMapPage, fPm) :: (SharedMemRegion, fShm) :: m8.2) m7.1
        (OtherLibraries + 1)).2 =
      (OtherLibraries + 1, f1) :: (OtherLibraries, f0) :: (PageMapUpdates, fRpc) ::
        (MainLibrary, fLib) :: (FDSocket, fSock) :: (PageMapPage, fPm) ::
        (SharedMemRegion, fShm) :: m8.2 := by
    rw [dup2Fd_eq _ _ _ _ r7]
  have r8 : fdLookup ((OtherLibraries + 1, f1) :: (OtherLibraries, f0) ::
        (PageMapUpdates, fRpc) :: (MainLibrary, fLib) :: (FDSocket, fSock) ::
        (PageMapPage, fPm) :: (SharedMemRegion, fShm) :: m8.2) m8.1 = some f2 := by
    rw [fdLookup_cons_ne _ _ _ _ (hne _ _ (by decide) ge8n),
      fdLookup_cons_ne _ _ _ _ (hne _ _ (by decide) ge8n),
      fdLookup_cons_ne _ _ _ _ (hne _ _ (by decide) ge8n),
      fdLookup_cons_ne _ _ _ _ (hne _ _ (by decide) ge8n),
      fdLookup_cons_ne _ _ _ _ (hne _ _ (by decide) ge8n),
      fdLookup_cons_ne _ _ _ _ (hne _ _ (by decide) ge8n),
      fdLookup_cons_ne _ _ _ _ (hne _ _ (by decide) ge8n)]
    exact q8
  have e8 : (dup2Fd ((OtherLibraries + 1, f1) :: (OtherLibraries, f0) ::
        (PageMapUpdates, fRpc) :: (MainLibrary, fLib) :: (FDSocket, fSock) ::
        (PageMapPage, fPm) :: (SharedMemRegion, fShm) :: m8.2) m8.1
        (OtherLibraries + 2)).2 =
      (OtherLibraries + 2, f2) :: (OtherLibraries + 1, f1) :: (OtherLibraries, f0) ::
        (PageMapUpdates, fRpc) :: (MainLibrary, fLib) :: (FDSocket, fSock) ::
        (PageMapPage, fPm) :: (SharedMemRegion, fShm) :: m8.2 := by
    rw [dup2Fd_eq _ _ _ _ r8]
  refine ⟨?_, ?_, ?_, ?_, ?_, ?_, ?_, ?_, ?_, ?_⟩
  · intro srcFd hmem
    simp only [List.mem_cons, List.not_mem_nil, or_false] at hmem
    rcases hmem with rfl | rfl | rfl | rfl | rfl | rfl | rfl | rfl
    exacts [ge1, ge2, ge3, ge4, ge5, ge6, ge7, ge8]
  · intro slot hslot srcFd hsrc
    simp only [fixedSlots, List.mem_cons, List.not_mem_nil, or_false] at hslot hsrc
    have hlt : slot < 11 := by
      rcases hslot with rfl | rfl | rfl | rfl | rfl | rfl | rfl | rfl <;> decide
    have hges : 11 ≤ srcFd := by
      rcases hsrc with h | h | h | h | h | h | h | h <;> rw [h]
      exacts [ge1n, ge2n, ge3n, ge4n, ge5n, ge6n, ge7n, ge8n]
    omega
  all_goals
    rw [e1, e2, e3, e4, e5, e6, e7, e8, fdLookup_closeFrom, if_pos (by decide)]
  all_goals
    simp [fdLookup_cons, SharedMemRegion, PageMapPage, FDSocket, MainLibrary,
      PageMapUpdates, OtherLibraries]

theorem start_child_fd_layout_witness :
    (∀ srcFd ∈ (start_child_fds [(0, 90), (1, 91), (2, 92), (3, 100), (4, 101), (5, 102),
        (6, 103)] 3 4 5 6 110 111 112 113).movedSources, last_fd ≤ srcFd) ∧
    (∀ slot ∈ fixedSlots,
      ∀ srcFd ∈ (start_child_fds [(0, 90), (1, 91), (2, 92), (3, 100), (4, 101), (5, 102),
        (6, 103)] 3 4 5 6 110 111 112 113).movedSources, slot ≠ srcFd) ∧
    fdLookup (start_child_fds [(0, 90), (1, 91), (2, 92), (3, 100), (4, 101), (5, 102),
      (6, 103)] 3 4 5 6 110 111 112 113).table SharedMemRegion = some 100 ∧
    fdLookup (start_child_fds [(0, 90), (1, 91), (2, 92), (3, 100), (4, 101), (5, 102),
      (6, 103)] 3 4 5 6 110 111 112 113).table PageMapPage = some 101 ∧
    fdLookup (start_child_fds [(0, 90), (1, 91), (2, 92), (3, 100), (4, 101), (5, 102),
      (6, 103)] 3 4 5 6 110 111 112 113).table FDSocket = some 102 ∧
    fdLookup (start_child_fds [(0, 90), (1, 91), (2, 92), (3, 100), (4, 101), (5, 102),
      (6, 103)] 3 4 5 6 110 111 112 113).table MainLibrary = some 110 ∧
    fdLookup (start_child_fds [(0, 90), (1, 91), (2, 92), (3, 100), (4, 101), (5, 102),
      (6, 103)] 3 4 5 6 110 111 112 113).table PageMapUpdates = some 103 ∧
    fdLookup (start_child_fds [(0, 90), (1, 91), (2, 92), (3, 100), (4, 101), (5, 102),
      (6, 103)] 3 4 5 6 110 111 112 113).table OtherLibraries = some 111 ∧
    fdLookup (start_child_fds [(0, 90), (1, 91), (2, 92), (3, 100), (4, 101), (5, 102),
      (6, 103)] 3 4 5 6 110 111 112 113).table (OtherLibraries + 1) = some 112 ∧
    fdLookup (start_child_fds [(0, 90), (1, 91), (2, 92), (3, 100), (4, 101), (5, 102),
      (6, 103)] 3 4 5 6 110 111 112 113).table (OtherLibraries + 2) = some 113 :=
  start_child_fd_layout [(0, 90), (1, 91), (2, 92), (3, 100), (4, 101), (5, 102), (6, 103)]
    3 4 5 6 100 101 102 103 110 111 112 113 (by rfl) (by rfl) (by rfl) (by rfl)

end sandbox
